import Mathlib

/-!
Shallow embedding of `mbed_flasher/flashers/FlasherMbed.py` (class `FlasherMbed`).

The embedding models the orchestration logic of the module:
* `check_points_unchanged` — identity re-resolution after the board remounts
  (serial/disk by-id scanning on Linux, enumeration on Windows, no-op on Darwin);
* `runner` — the remount watch loop polling the mount point's listing;
* `flash` — the end-to-end direct-copy flow: optional pre-reset, source read,
  binary write, identity re-resolution, remount wait, optional post-reset and
  mount-point verification (`FAIL.TXT` / `ASSERT.TXT` / written file still present).

Modelling conventions:
* Python dictionaries holding the target descriptor become a structure of
  `Option String` fields; reading an absent key raises `PyErr.keyError`,
  mirrored by an `Except PyErr` result.
* OS interaction (file reads, `ls`/`dir`/`mount` output, the mount-point
  filesystem at verification time) is captured by an `Env` record supplied to
  the functions; `Env.sourceBytes = none` models the source file being
  unreadable (Python `open`/`read` raising `IOError`, which the code re-raises).
* `os.path.abspath` is modelled as the identity on the already-absolute paths
  used throughout; `str.strip()` is modelled by `String.trim`.
* Wall-clock time in the watch loop advances by 2 (the `sleep(2)`) plus a
  nonnegative per-iteration overhead `Env.pollExtra n` each poll.
-/

/-- Prefix test on character lists (structural, so it evaluates by kernel
reduction on concrete inputs). -/
def charsIsPrefixOf : List Char → List Char → Bool
  | [], _ => true
  | _ :: _, [] => false
  | a :: as, b :: bs => a == b && charsIsPrefixOf as bs

/-- Substring occurrence test on character lists. -/
def charsContain (sub : List Char) : List Char → Bool
  | [] => sub.isEmpty
  | l@(_ :: rest) => charsIsPrefixOf sub l || charsContain sub rest

/-- Python-style substring test: `s.find(sub) != -1`
(`find` of the empty string is `0`, so an empty `sub` always succeeds). -/
def strFind (s sub : String) : Bool :=
  charsContain sub.data s.data

/-- Splitting a character list on a single separator character, Python
`str.split(sep)` style: `n` separators yield `n + 1` chunks. -/
def splitChar (c : Char) : List Char → List (List Char)
  | [] => [[]]
  | a :: as =>
    if a == c then [] :: splitChar c as
    else
      match splitChar c as with
      | [] => [[a]]
      | h :: t => (a :: h) :: t

/-- Python `s.split('/')[-1]`: last `/`-separated component of a string. -/
def lastComp (s : String) : String :=
  ⟨(splitChar ('/') s.data).getLastD []⟩

/-- Python `os.path.split(path)[1]` on the absolute source path: the part
after the last `/`. -/
def basename (s : String) : String :=
  ⟨(splitChar ('/') s.data).getLastD []⟩

/-- Exceptions the modelled code can raise: a `KeyError` on a missing
dictionary key, or the `IOError` that the source-read path re-raises. -/
inductive PyErr where
  | keyError (key : String)
  | ioError
deriving DecidableEq, Repr

/-- The platform families distinguished by `platform.system()`. -/
inductive Platform where
  | windows
  | darwin
  | linux
deriving DecidableEq, BEq, Repr

/-- The target-descriptor dictionary: each field models the presence and value
of the corresponding key (`none` = key absent). -/
structure TDict where
  target_id : Option String
  serial_port : Option String
  mount_point : Option String
  dev_point : Option String
deriving DecidableEq, Repr

/-- Reading `dict[key]`: `KeyError` when the key is absent. -/
def getKey {α : Type} (o : Option α) (key : String) : Except PyErr α :=
  match o with
  | some v => .ok v
  | none => .error (.keyError key)

/-- The operating-system environment one flash invocation observes. -/
structure Env where
  platform : Platform
  /-- whether `from pyOCD.board import MbedBoard` succeeds -/
  pyocdAvailable : Bool
  /-- bytes of the source image; `none` models `open`/`read` raising `IOError` -/
  sourceBytes : Option (List Nat)
  /-- Windows: result of `mbed_lstools.get_mbed_com_port(target_id)` -/
  comPort : Option String
  /-- lines of `ls -oA /dev/serial/by-id/` -/
  serialByIdLines : List String
  /-- lines of `ls -oA /dev/disk/by-id/` -/
  diskByIdLines : List String
  /-- lines of `mount | grep vfat` -/
  vfatMounts : List String
  /-- output of the n-th `ls`/`dir` poll of the mount point in `runner` -/
  poll : Nat → String
  /-- extra wall-clock seconds the n-th `runner` iteration takes beyond `sleep(2)` -/
  pollExtra : Nat → Nat
  /-- `os.listdir` result used by `auxiliary_drive_check` -/
  auxListing : List String
  /-- filesystem at verification time: directory path → file name → contents -/
  fsAt : String → String → Option String

/-! ## `check_points_unchanged` (source lines 106-168) -/

/-- The serial-by-id scan (source lines 115-123): for each listing line that
contains the target id, compare the line's last path component with the current
serial port's; the first differing match is recorded as the new serial port and
a second differing match returns `-10`. Each iteration reads
`target['target_id']` and, on a match, `target['serial_port']`. -/
def serialScanLinux (t : TDict) : List String → Option String → Except PyErr (Sum Int (Option String))
  | [], acc => .ok (.inr acc)
  | line :: rest, acc =>
    match t.target_id with
    | none => .error (.keyError "target_id")
    | some tid =>
      if strFind line tid then
        match t.serial_port with
        | none => .error (.keyError "serial_port")
        | some sp =>
          if !(lastComp sp == lastComp line) then
            match acc with
            | none => serialScanLinux t rest (some ("/dev/" ++ lastComp line))
            | some _ => .ok (.inl (-10))
          else
            serialScanLinux t rest acc
      else
        serialScanLinux t rest acc

/-- The disk-by-id scan (source lines 125-132): the first listing line that
contains the target id is recorded as the new device point; a second match
returns `-11`. -/
def diskScanLinux (t : TDict) : List String → Option String → Except PyErr (Sum Int (Option String))
  | [], acc => .ok (.inr acc)
  | line :: rest, acc =>
    match t.target_id with
    | none => .error (.keyError "target_id")
    | some tid =>
      if strFind line tid then
        match acc with
        | none => diskScanLinux t rest (some ("/dev/" ++ lastComp line))
        | some _ => .ok (.inl (-11))
      else
        diskScanLinux t rest acc

/-- `mount.split('on')[1].split('type')[0].strip()` (source lines 139/143),
modelled totally on well-formed `mount` lines. -/
def parseMountPoint (mount : String) : String :=
  ((((mount.splitOn "on").getD 1 "").splitOn "type").headD "").trim

/-- The vfat mount-table poll (source lines 134-152). Because the mount table
of the environment is constant, the 10 one-second retries collapse to a single
scan: either some `mount | grep vfat` line references the new device point (a
changed mount point is then recorded), or `-12` is returned. This code is
unreachable in the source: its guard `if dev_points:` tests a list that is
never appended to. -/
def pollVfat (env : Env) (t nt : TDict) : Except PyErr (Sum Int TDict) :=
  match getKey nt.dev_point "dev_point" with
  | .error e => .error e
  | .ok dp =>
    match env.vfatMounts.find? (fun m => strFind m dp) with
    | some m =>
      match getKey t.mount_point "mount_point" with
      | .error e => .error e
      | .ok tmp =>
        if parseMountPoint m = tmp then .ok (.inr nt)
        else .ok (.inr { nt with mount_point := some (parseMountPoint m) })
    | none => .ok (.inl (-12))

/-- Source lines 154-168: if any key was recorded in `new_target`, the debug
logs read `target['serial_port']` and `target['mount_point']`, then
`target['target_id']` is copied into `new_target`, which is returned;
otherwise the original descriptor object is returned unchanged. -/
def mergeStep (t nt : TDict) : Except PyErr TDict :=
  if nt.target_id.isSome || nt.serial_port.isSome || nt.mount_point.isSome || nt.dev_point.isSome then
    match t.serial_port with
    | none => .error (.keyError "serial_port")
    | some _ =>
      match t.mount_point with
      | none => .error (.keyError "mount_point")
      | some _ =>
        match t.target_id with
        | none => .error (.keyError "target_id")
        | some tid => .ok { nt with target_id := some tid }
  else
    .ok t

/-- `FlasherMbed.check_points_unchanged` (source lines 106-168). Returns
`.inl code` for the error-code returns (`-10`, `-11`, `-12`) and `.inr d` for
the returned descriptor. On Windows the model assumes the enumeration
collaborator yields a COM-port string when one exists (`Env.comPort`); on
Darwin the body is `pass`, so the merge step sees an empty `new_target` and
returns the input descriptor. -/
def check_points_unchanged (env : Env) (t : TDict) : Except PyErr (Sum Int TDict) :=
  match env.platform with
  | .windows =>
    match t.serial_port with
    | none => .error (.keyError "serial_port")
    | some sp =>
      match t.target_id with
      | none => .error (.keyError "target_id")
      | some _ =>
        let nt : TDict :=
          if env.comPort = some sp then ⟨none, none, none, none⟩
          else ⟨none, env.comPort, none, none⟩
        match mergeStep t nt with
        | .error e => .error e
        | .ok r => .ok (.inr r)
  | .darwin =>
    match mergeStep t ⟨none, none, none, none⟩ with
    | .error e => .error e
    | .ok r => .ok (.inr r)
  | .linux =>
    match serialScanLinux t env.serialByIdLines none with
    | .error e => .error e
    | .ok (.inl code) => .ok (.inl code)
    | .ok (.inr newSerial) =>
      match diskScanLinux t env.diskByIdLines none with
      | .error e => .error e
      | .ok (.inl code) => .ok (.inl code)
      | .ok (.inr newDev) =>
        -- source line 124: `dev_points = []`; nothing is ever appended to it,
        -- so the `if dev_points:` guard of the vfat poll is always false.
        let dev_points : List String := []
        let nt : TDict := ⟨none, newSerial, none, newDev⟩
        if dev_points.isEmpty then
          match mergeStep t nt with
          | .error e => .error e
          | .ok r => .ok (.inr r)
        else
          match pollVfat env t nt with
          | .error e => .error e
          | .ok (.inl code) => .ok (.inl code)
          | .ok (.inr nt2) =>
            match mergeStep t nt2 with
            | .error e => .error e
            | .ok r => .ok (.inr r)

/-! ## `runner` and `auxiliary_drive_check` (source lines 75-104) -/

/-- `FlasherMbed.FLASHING_VERIFICATION_TIMEOUT` (source line 33). -/
def FLASHING_VERIFICATION_TIMEOUT : Nat := 100

/-- `FlasherMbed.auxiliary_drive_check` (source lines 75-83) as the truth value
the caller tests: some listed item contains `.HTM` and the written file name is
not among the listed items (the Python function's `None` fall-through is falsy). -/
def auxiliary_drive_check (listing : List String) (tail : String) : Bool :=
  (listing.any (fun item => strFind item ".HTM")) && !(listing.contains tail)

/-- Elapsed wall-clock seconds when the n-th poll of `runner` tests the clock:
each iteration sleeps 2 seconds and spends `Env.pollExtra` more. -/
def elapsedAt (env : Env) : Nat → Nat
  | 0 => 2 + env.pollExtra 0
  | n + 1 => elapsedAt env n + 2 + env.pollExtra (n + 1)

/-- The break conditions tested by the n-th iteration of `runner` (source lines
95-101): the poll output contains `.HTM` but not the written file name, or (on
Windows) the output is empty and `auxiliary_drive_check` confirms the remount. -/
def runnerCond (env : Env) (tail : String) (n : Nat) : Bool :=
  let out := env.poll n
  (strFind out ".HTM" && !(strFind out tail)) ||
    (env.platform == .windows && out == "" && auxiliary_drive_check env.auxListing tail)

/-- How the remount watch loop exits: by meeting a break condition at poll `n`,
or by the elapsed-time check at poll `n` (the loop's result is advisory — the
Python function returns nothing either way). -/
inductive RunnerExit where
  | settled (n : Nat)
  | timedOut (n : Nat)
deriving DecidableEq, Repr

theorem elapsedAt_ge (env : Env) (n : Nat) : 2 * (n + 1) ≤ elapsedAt env n := by
  induction n with
  | zero => unfold elapsedAt; omega
  | succ n ih => unfold elapsedAt; omega

/-- The body of `FlasherMbed.runner` (source lines 85-104) from iteration `n`
onward: poll, break on a met condition, break once the elapsed time exceeds
`FLASHING_VERIFICATION_TIMEOUT`, else loop. -/
def runnerFrom (env : Env) (tail : String) (n : Nat) : RunnerExit :=
  if runnerCond env tail n then .settled n
  else if h : FLASHING_VERIFICATION_TIMEOUT < elapsedAt env n then .timedOut n
  else runnerFrom env tail (n + 1)
termination_by 51 - n
decreasing_by
  have hge := elapsedAt_ge env n
  simp [FLASHING_VERIFICATION_TIMEOUT] at h
  omega

/-- `FlasherMbed.runner` (source lines 85-104). -/
def runner (env : Env) (tail : String) : RunnerExit :=
  runnerFrom env tail 0

/-! ## `flash` (source lines 170-286) -/

/-- Observable effects of one flash invocation: the serial ports passed to
`reset_board`, in order; whether bytes were written to the mount point; and
the fault message read from `FAIL.TXT`/`ASSERT.TXT` (stripped, as logged). -/
structure Effects where
  resets : List String := []
  wrote : Bool := false
  fault : Option String := none
deriving DecidableEq, Repr

/-- Result of one flash invocation: a returned integer code, a propagated
exception, or delegation to the external pyOCD collaborator. -/
inductive FlashResult where
  | ret (code : Int) (eff : Effects)
  | exn (e : PyErr) (eff : Effects)
  | delegated (eff : Effects)
deriving DecidableEq, Repr

/-- The integer `flash` returns, when it returns one. -/
def retCode : FlashResult → Option Int
  | .ret code _ => some code
  | _ => none

/-- The effects any flash invocation performed. -/
def effOf : FlashResult → Effects
  | .ret _ eff => eff
  | .exn _ eff => eff
  | .delegated eff => eff

/-- The pre-write reset (source lines 212-214): `reset_board` runs only when
the descriptor has a `serial_port` key and `no_reset` is false. -/
def preResetEffects (t : TDict) (no_reset : Bool) : Effects :=
  match t.serial_port, no_reset with
  | some sp, false => { resets := [sp] }
  | _, _ => {}

/-- The post-write reset (source lines 251-256): when `no_reset` is false,
`reset_board` is called with the resolved serial port if the resolver recorded
one, otherwise with `target['serial_port']` — an unguarded read that raises
`KeyError` when the key is absent. -/
def postResetEffects (t nt : TDict) (no_reset : Bool) (eff : Effects) : Except PyErr Effects :=
  if no_reset then .ok eff
  else
    match nt.serial_port with
    | some sp => .ok { eff with resets := eff.resets ++ [sp] }
    | none =>
      match t.serial_port with
      | some sp => .ok { eff with resets := eff.resets ++ [sp] }
      | none => .error (.keyError "serial_port")

/-- The verification step (source lines 258-279), using the resolved mount
point (`new_target['mount_point']` if recorded, else `target['mount_point']`):
`FAIL.TXT` first (read, strip, return `-4`), then `ASSERT.TXT` (same), then
the written file name still present (`-15`), else `0`. -/
def verifyStep (env : Env) (nt : TDict) (mp tail : String) (eff : Effects) : FlashResult :=
  let mount := nt.mount_point.getD mp
  match env.fsAt mount "FAIL.TXT" with
  | some contents => .ret (-4) { eff with fault := some contents.trim }
  | none =>
    match env.fsAt mount "ASSERT.TXT" with
    | some contents => .ret (-4) { eff with fault := some contents.trim }
    | none =>
      if (env.fsAt mount tail).isSome then .ret (-15) eff
      else .ret 0 eff

/-- Source lines 242-279: after the write, re-resolve identity (an integer
result is returned as-is, aborting; a raised `KeyError` propagates), join the
remount watch thread (its result is discarded), run the optional post-reset,
and verify the mount point. -/
def afterWrite (env : Env) (t : TDict) (no_reset : Bool) (mp tail : String) (eff : Effects) : FlashResult :=
  match check_points_unchanged env t with
  | .error e => .exn e eff
  | .ok (.inl code) => .ret code eff
  | .ok (.inr nt) =>
    let _watch := runner env tail
    match postResetEffects t nt no_reset eff with
    | .error e => .exn e eff
    | .ok eff2 => verifyStep env nt mp tail eff2

/-- `FlasherMbed.flash` (source lines 170-286). In order: the pyOCD import
check (`-8`), the edbg rejection (`-13`), the `target['mount_point']` read,
the basename split, the pyOCD delegation, and the direct-copy path: optional
pre-reset, source read (`IOError` re-raised when unreadable; `-7` when the
bytes are empty on non-Windows; Windows copies without an emptiness check),
then `afterWrite`. The direct `os.open`/`os.write` of the image is modelled as
succeeding (the `OSError` handler returning `-14` at lines 283-286 is outside
the behaviours the claims quantify over). -/
def flash (env : Env) (source : String) (t : TDict) (method : String) (no_reset : Bool) : FlashResult :=
  if method = "pyocd" ∧ env.pyocdAvailable = false then .ret (-8) {}
  else if method = "edbg" then .ret (-13) {}
  else
    match t.mount_point with
    | none => .exn (.keyError "mount_point") {}
    | some mp =>
      let tail := basename source
      if method = "pyocd" then .delegated {}
      else
        let eff1 := preResetEffects t no_reset
        match env.platform, env.sourceBytes with
        | .windows, none => .exn .ioError eff1
        | .windows, some _ => afterWrite env t no_reset mp tail { eff1 with wrote := true }
        | _, none => .exn .ioError eff1
        | _, some bs =>
          if bs = [] then .ret (-7) eff1
          else afterWrite env t no_reset mp tail { eff1 with wrote := true }

/-! ## Helper lemmas -/

theorem postResetEffects_ok (t nt : TDict) (no_reset : Bool) (eff : Effects)
    (h : no_reset = true ∨ nt.serial_port.isSome ∨ t.serial_port.isSome) :
    ∃ eff2, postResetEffects t nt no_reset eff = .ok eff2 := by
  unfold postResetEffects
  rcases h with h | h | h
  · exact ⟨eff, by simp [h]⟩
  · cases hn : nt.serial_port with
    | none => simp [hn] at h
    | some sp => cases no_reset <;> simp [hn]
  · cases hn : nt.serial_port with
    | none =>
      cases ht : t.serial_port with
      | none => simp [ht] at h
      | some sp => cases no_reset <;> simp [hn, ht]
    | some sp => cases no_reset <;> simp [hn]

/-- Under the hypotheses that make an invocation take the direct-copy path and
write the image, `flash` computes exactly the post-write phase's result. -/
theorem flash_reaches_afterWrite (env : Env) (source : String) (t : TDict) (method : String)
    (no_reset : Bool) (mp : String) (bs : List Nat)
    (hm1 : method ≠ "pyocd") (hm2 : method ≠ "edbg")
    (hmp : t.mount_point = some mp)
    (hsb : env.sourceBytes = some bs)
    (hbs : env.platform = .windows ∨ bs ≠ []) :
    flash env source t method no_reset =
      afterWrite env t no_reset mp (basename source)
        { preResetEffects t no_reset with wrote := true } := by
  have hnp : ¬(method = "pyocd" ∧ env.pyocdAvailable = false) := fun h => hm1 h.1
  unfold flash
  rw [if_neg hnp, if_neg hm2, hmp]
  simp only []
  rw [if_neg hm1]
  rcases hbs with hwin | hne
  · rw [hwin, hsb]
  · cases hp : env.platform with
    | windows => rw [hsb]
    | darwin =>
      rw [hsb]
      simp only []
      rw [if_neg hne]
    | linux =>
      rw [hsb]
      simp only []
      rw [if_neg hne]

/-- Under the hypotheses that make a direct-copy invocation reach the
verification step, `flash` computes exactly the verification step's result. -/
theorem flash_reaches_verify (env : Env) (source : String) (t : TDict) (method : String)
    (no_reset : Bool) (mp : String) (nt : TDict) (eff2 : Effects) (bs : List Nat)
    (hm1 : method ≠ "pyocd") (hm2 : method ≠ "edbg")
    (hmp : t.mount_point = some mp)
    (hsb : env.sourceBytes = some bs)
    (hbs : env.platform = .windows ∨ bs ≠ [])
    (hchk : check_points_unchanged env t = .ok (.inr nt))
    (hpost : postResetEffects t nt no_reset
      { preResetEffects t no_reset with wrote := true } = .ok eff2) :
    flash env source t method no_reset = verifyStep env nt mp (basename source) eff2 := by
  rw [flash_reaches_afterWrite env source t method no_reset mp bs hm1 hm2 hmp hsb hbs]
  simp only [afterWrite, hchk, hpost]

/-! ## Concrete environments used by the witnesses and counterexamples -/

/-- A concrete Linux environment: readable three-byte image, empty by-id
listings, empty mount table, clean mount point. -/
def wEnv : Env where
  platform := .linux
  pyocdAvailable := false
  sourceBytes := some [1, 2, 3]
  comPort := none
  serialByIdLines := []
  diskByIdLines := []
  vfatMounts := []
  poll := fun _ => ""
  pollExtra := fun _ => 0
  auxListing := []
  fsAt := fun _ _ => none

/-- A concrete fully-populated target descriptor. -/
def wTarget : TDict := ⟨some "0240AAAA", some "/dev/ttyACM0", some "/mnt/DAPLINK", none⟩

/-! ## C1 -/

/-- C1: for every direct-copy flash invocation that reaches the verification
step, if the resolved mount point contains no file named `FAIL.TXT`, no file
named `ASSERT.TXT`, and no file with the basename of the source image, then
`flash` returns the Success outcome (return value 0). -/
theorem C1_flash_clean_mount_success (env : Env) (source : String) (t : TDict)
    (method : String) (no_reset : Bool) (mp : String) (nt : TDict) (bs : List Nat)
    (hm1 : method ≠ "pyocd") (hm2 : method ≠ "edbg")
    (hmp : t.mount_point = some mp)
    (hsb : env.sourceBytes = some bs)
    (hbs : env.platform = .windows ∨ bs ≠ [])
    (hchk : check_points_unchanged env t = .ok (.inr nt))
    (hrst : no_reset = true ∨ nt.serial_port.isSome ∨ t.serial_port.isSome)
    (hfail : env.fsAt (nt.mount_point.getD mp) "FAIL.TXT" = none)
    (hassrt : env.fsAt (nt.mount_point.getD mp) "ASSERT.TXT" = none)
    (htail : env.fsAt (nt.mount_point.getD mp) (basename source) = none) :
    retCode (flash env source t method no_reset) = some 0 := by
  obtain ⟨eff2, hok⟩ := postResetEffects_ok t nt no_reset
    { preResetEffects t no_reset with wrote := true } hrst
  rw [flash_reaches_verify env source t method no_reset mp nt eff2 bs hm1 hm2 hmp hsb hbs hchk hok]
  unfold verifyStep
  simp only [hfail, hassrt, htail]
  rfl

/-- Witness for C1: a concrete clean direct-copy invocation returns 0. -/
theorem C1_flash_clean_mount_success_witness :
    retCode (flash wEnv "/home/user/fw.bin" wTarget "simple" false) = some 0 :=
  C1_flash_clean_mount_success wEnv "/home/user/fw.bin" wTarget "simple" false
    "/mnt/DAPLINK" wTarget [1, 2, 3] (by decide) (by decide) rfl rfl
    (Or.inr (by decide)) rfl (Or.inr (Or.inl rfl)) rfl rfl rfl

/-! ## C2 -/

/-- C2: for every direct-copy flash invocation that reaches verification, if a
`FAIL.TXT` file exists in the resolved mount point, `flash` returns the
device-reported-failure outcome (return value `-4`) carrying that file's
stripped contents as the reported fault, and the `ASSERT.TXT` file is not
consulted at all: the result is unchanged under arbitrary modification of what
an `ASSERT.TXT` lookup would return. -/
theorem C2_flash_fail_txt_device_failure (env : Env) (source : String) (t : TDict)
    (method : String) (no_reset : Bool) (mp : String) (nt : TDict) (bs : List Nat)
    (contents : String)
    (hm1 : method ≠ "pyocd") (hm2 : method ≠ "edbg")
    (hmp : t.mount_point = some mp)
    (hsb : env.sourceBytes = some bs)
    (hbs : env.platform = .windows ∨ bs ≠ [])
    (hchk : check_points_unchanged env t = .ok (.inr nt))
    (hrst : no_reset = true ∨ nt.serial_port.isSome ∨ t.serial_port.isSome)
    (hfail : env.fsAt (nt.mount_point.getD mp) "FAIL.TXT" = some contents) :
    (∃ eff, flash env source t method no_reset = .ret (-4) eff ∧
      eff.fault = some contents.trim) ∧
    (∀ g : String → String → Option String,
      flash { env with fsAt := fun d f => if f = "ASSERT.TXT" then g d f else env.fsAt d f }
          source t method no_reset
        = flash env source t method no_reset) := by
  obtain ⟨eff2, hok⟩ := postResetEffects_ok t nt no_reset
    { preResetEffects t no_reset with wrote := true } hrst
  have hverify := flash_reaches_verify env source t method no_reset mp nt eff2 bs
    hm1 hm2 hmp hsb hbs hchk hok
  constructor
  · refine ⟨{ eff2 with fault := some contents.trim }, ?_, rfl⟩
    rw [hverify]
    unfold verifyStep
    simp only [hfail]
  · intro g
    have hchk2 : check_points_unchanged
        { env with fsAt := fun d f => if f = "ASSERT.TXT" then g d f else env.fsAt d f } t
        = .ok (.inr nt) := hchk
    have hverify2 := flash_reaches_verify
      { env with fsAt := fun d f => if f = "ASSERT.TXT" then g d f else env.fsAt d f }
      source t method no_reset mp nt eff2 bs hm1 hm2 hmp hsb hbs hchk2 hok
    rw [hverify, hverify2]
    unfold verifyStep
    simp [hfail]

/-- Witness for C2: a concrete invocation with `FAIL.TXT` containing
`" bad crc\n"` returns `-4` with reported fault `"bad crc"`, independently of
any `ASSERT.TXT` contents. -/
theorem C2_flash_fail_txt_device_failure_witness :
    (∃ eff, flash { wEnv with fsAt := fun _ f => if f = "FAIL.TXT" then some " bad crc\n" else none }
        "/home/user/fw.bin" wTarget "simple" false = .ret (-4) eff ∧
      eff.fault = some (" bad crc\n".trim)) ∧
    (∀ g : String → String → Option String,
      flash { { wEnv with fsAt := fun _ f => if f = "FAIL.TXT" then some " bad crc\n" else none }
            with fsAt := fun d f => if f = "ASSERT.TXT" then g d f
              else ({ wEnv with fsAt := fun _ f => if f = "FAIL.TXT" then some " bad crc\n" else none } : Env).fsAt d f }
          "/home/user/fw.bin" wTarget "simple" false
        = flash { wEnv with fsAt := fun _ f => if f = "FAIL.TXT" then some " bad crc\n" else none }
            "/home/user/fw.bin" wTarget "simple" false) :=
  C2_flash_fail_txt_device_failure
    { wEnv with fsAt := fun _ f => if f = "FAIL.TXT" then some " bad crc\n" else none }
    "/home/user/fw.bin" wTarget "simple" false "/mnt/DAPLINK" wTarget [1, 2, 3] " bad crc\n"
    (by decide) (by decide) rfl rfl (Or.inr (by decide)) rfl (Or.inr (Or.inl rfl)) rfl

/-! ## C3 -/

/-- C3: for every direct-copy flash invocation that reaches verification, if
neither `FAIL.TXT` nor `ASSERT.TXT` exists in the resolved mount point but a
file with the basename of the source image is still present there, `flash`
returns the file-still-present outcome (return value `-15`), not Success. -/
theorem C3_flash_file_still_present (env : Env) (source : String) (t : TDict)
    (method : String) (no_reset : Bool) (mp : String) (nt : TDict) (bs : List Nat)
    (leftover : String)
    (hm1 : method ≠ "pyocd") (hm2 : method ≠ "edbg")
    (hmp : t.mount_point = some mp)
    (hsb : env.sourceBytes = some bs)
    (hbs : env.platform = .windows ∨ bs ≠ [])
    (hchk : check_points_unchanged env t = .ok (.inr nt))
    (hrst : no_reset = true ∨ nt.serial_port.isSome ∨ t.serial_port.isSome)
    (hfail : env.fsAt (nt.mount_point.getD mp) "FAIL.TXT" = none)
    (hassrt : env.fsAt (nt.mount_point.getD mp) "ASSERT.TXT" = none)
    (htail : env.fsAt (nt.mount_point.getD mp) (basename source) = some leftover) :
    retCode (flash env source t method no_reset) = some (-15) ∧
    retCode (flash env source t method no_reset) ≠ some 0 := by
  obtain ⟨eff2, hok⟩ := postResetEffects_ok t nt no_reset
    { preResetEffects t no_reset with wrote := true } hrst
  rw [flash_reaches_verify env source t method no_reset mp nt eff2 bs hm1 hm2 hmp hsb hbs hchk hok]
  unfold verifyStep
  simp only [hfail, hassrt, htail]
  refine ⟨rfl, by simp [retCode]⟩

/-- Witness for C3: a concrete invocation whose mount point still lists the
written file name returns `-15`. -/
theorem C3_flash_file_still_present_witness :
    retCode (flash { wEnv with fsAt := fun _ f => if f = "fw.bin" then some "" else none }
        "/home/user/fw.bin" wTarget "simple" false) = some (-15) ∧
    retCode (flash { wEnv with fsAt := fun _ f => if f = "fw.bin" then some "" else none }
        "/home/user/fw.bin" wTarget "simple" false) ≠ some 0 :=
  C3_flash_file_still_present
    { wEnv with fsAt := fun _ f => if f = "fw.bin" then some "" else none }
    "/home/user/fw.bin" wTarget "simple" false "/mnt/DAPLINK" wTarget [1, 2, 3] ""
    (by decide) (by decide) rfl rfl (Or.inr (by decide)) rfl (Or.inr (Or.inl rfl))
    (by decide) (by decide) (by decide)

/-! ## C4 -/

theorem verifyStep_resets (env : Env) (nt : TDict) (mp tail : String) (eff : Effects) :
    (effOf (verifyStep env nt mp tail eff)).resets = eff.resets := by
  unfold verifyStep
  simp only []
  split
  · rfl
  · split
    · rfl
    · split <;> rfl

theorem afterWrite_no_reset_resets (env : Env) (t : TDict) (mp tail : String) (eff : Effects) :
    (effOf (afterWrite env t true mp tail eff)).resets = eff.resets := by
  unfold afterWrite
  split
  · rfl
  · rfl
  · simp only [postResetEffects, if_pos]
    exact verifyStep_resets ..

/-- C4: for every flash invocation with `no_reset` set (the suppress-reset
flag), `reset_board` is never invoked — neither before the binary write nor
after the remount wait: the recorded reset effects are empty on every path. -/
theorem C4_no_reset_never_resets (env : Env) (source : String) (t : TDict) (method : String) :
    (effOf (flash env source t method true)).resets = [] := by
  have hpre : preResetEffects t true = {} := by
    unfold preResetEffects; cases t.serial_port <;> rfl
  unfold flash
  split
  · rfl
  · split
    · rfl
    · split
      · rfl
      · split
        · rfl
        · rw [hpre]
          split
          · rfl
          · rw [afterWrite_no_reset_resets]
          · rfl
          · split
            · rfl
            · rw [afterWrite_no_reset_resets]

/-! ## C10 -/

/-- C10: with `no_reset` false, the pre-write reset is performed only when the
descriptor has a `serial_port` key (silently skipped otherwise — no reset is
recorded), but the post-write reset path reads `target['serial_port']`
unguarded when the resolver records no new serial port; a direct-copy flash of
a descriptor lacking `serial_port` therefore does not return an outcome value
and instead propagates a `KeyError`. The Darwin platform hypothesis makes the
resolver return the descriptor unchanged, so no new serial port is recorded. -/
theorem C10_missing_serial_port_keyerror (env : Env) (source : String) (t : TDict)
    (method : String) (mp : String) (bs : List Nat)
    (hplat : env.platform = .darwin)
    (hm1 : method ≠ "pyocd") (hm2 : method ≠ "edbg")
    (hmp : t.mount_point = some mp)
    (hsp : t.serial_port = none)
    (hsb : env.sourceBytes = some bs) (hne : bs ≠ []) :
    flash env source t method false = .exn (.keyError "serial_port") { wrote := true } ∧
    retCode (flash env source t method false) = none ∧
    (effOf (flash env source t method false)).resets = [] := by
  have hpre : preResetEffects t false = {} := by
    unfold preResetEffects; rw [hsp]
  have hchk : check_points_unchanged env t = .ok (.inr t) := by
    unfold check_points_unchanged
    rw [hplat]
    simp only [mergeStep]
    rfl
  have hflash : flash env source t method false = .exn (.keyError "serial_port") { wrote := true } := by
    rw [flash_reaches_afterWrite env source t method false mp bs hm1 hm2 hmp hsb (Or.inr hne)]
    unfold afterWrite
    rw [hchk]
    simp only [postResetEffects, hsp, hpre]
    rfl
  exact ⟨hflash, by rw [hflash]; rfl, by rw [hflash]; rfl⟩

/-- Witness for C10: a concrete Darwin direct-copy flash of a descriptor
without `serial_port` ends in a propagated `KeyError` with no resets. -/
theorem C10_missing_serial_port_keyerror_witness :
    flash { wEnv with platform := .darwin } "/home/user/fw.bin"
        ⟨some "0240AAAA", none, some "/mnt/DAPLINK", none⟩ "simple" false
      = .exn (.keyError "serial_port") { wrote := true } ∧
    retCode (flash { wEnv with platform := .darwin } "/home/user/fw.bin"
        ⟨some "0240AAAA", none, some "/mnt/DAPLINK", none⟩ "simple" false) = none ∧
    (effOf (flash { wEnv with platform := .darwin } "/home/user/fw.bin"
        ⟨some "0240AAAA", none, some "/mnt/DAPLINK", none⟩ "simple" false)).resets = [] :=
  C10_missing_serial_port_keyerror { wEnv with platform := .darwin } "/home/user/fw.bin"
    ⟨some "0240AAAA", none, some "/mnt/DAPLINK", none⟩ "simple" "/mnt/DAPLINK" [1, 2, 3]
    rfl (by decide) (by decide) rfl rfl rfl (by decide)

/-! ## C5 -/

/-- Counterexample to C5 as stated: a concrete non-Windows direct-copy
invocation whose source image is unreadable does not return the `-7` IoError
outcome — the re-raised `IOError` propagates instead (no return value at all),
though indeed nothing was written. -/
theorem C5_unreadable_not_ioerror_counterexample :
    retCode (flash { wEnv with sourceBytes := none } "/home/user/fw.bin" wTarget "simple" false)
      ≠ some (-7) ∧
    flash { wEnv with sourceBytes := none } "/home/user/fw.bin" wTarget "simple" false
      = .exn .ioError { resets := ["/dev/ttyACM0"] } ∧
    (effOf (flash { wEnv with sourceBytes := none } "/home/user/fw.bin" wTarget "simple" false)).wrote
      = false := by
  refine ⟨?_, rfl, rfl⟩
  intro h
  simp only [show flash { wEnv with sourceBytes := none } "/home/user/fw.bin" wTarget "simple" false
      = .exn .ioError { resets := ["/dev/ttyACM0"] } from rfl] at h
  exact absurd h (by simp [retCode])

/-- C5 amended: on every non-Windows direct-copy invocation the whole source
image is read before anything is written; an empty image fails fast with `-7`
and nothing written, while an unreadable image propagates the re-raised
`IOError` (again with nothing written) rather than returning `-7`. (On Windows
the source is read for hashing but no emptiness check is performed.) -/
theorem C5_read_before_write_amended (env : Env) (source : String) (t : TDict)
    (method : String) (no_reset : Bool) (mp : String)
    (hplat : env.platform ≠ .windows)
    (hm1 : method ≠ "pyocd") (hm2 : method ≠ "edbg")
    (hmp : t.mount_point = some mp) :
    (env.sourceBytes = none →
      flash env source t method no_reset = .exn .ioError (preResetEffects t no_reset) ∧
      (effOf (flash env source t method no_reset)).wrote = false) ∧
    (env.sourceBytes = some [] →
      flash env source t method no_reset = .ret (-7) (preResetEffects t no_reset) ∧
      (effOf (flash env source t method no_reset)).wrote = false) := by
  have hnp : ¬(method = "pyocd" ∧ env.pyocdAvailable = false) := fun h => hm1 h.1
  have hwrote : (preResetEffects t no_reset).wrote = false := by
    unfold preResetEffects
    rcases t.serial_port with _ | sp <;> cases no_reset <;> rfl
  constructor
  · intro hsb
    have hflash : flash env source t method no_reset = .exn .ioError (preResetEffects t no_reset) := by
      unfold flash
      rw [if_neg hnp, if_neg hm2, hmp]
      simp only []
      rw [if_neg hm1]
      cases hp : env.platform with
      | windows => exact absurd hp hplat
      | darwin => rw [hsb]
      | linux => rw [hsb]
    exact ⟨hflash, by rw [hflash]; exact hwrote⟩
  · intro hsb
    have hflash : flash env source t method no_reset = .ret (-7) (preResetEffects t no_reset) := by
      unfold flash
      rw [if_neg hnp, if_neg hm2, hmp]
      simp only []
      rw [if_neg hm1]
      cases hp : env.platform with
      | windows => exact absurd hp hplat
      | darwin => rw [hsb]; simp
      | linux => rw [hsb]; simp
    exact ⟨hflash, by rw [hflash]; exact hwrote⟩

/-- Witness for the amended C5 at concrete inputs: unreadable source on Linux
propagates `IOError` with nothing written; an empty source returns `-7` with
nothing written. -/
theorem C5_read_before_write_amended_witness :
    (flash { wEnv with sourceBytes := none } "/home/user/other.bin" wTarget "simple" true
        = .exn .ioError (preResetEffects wTarget true) ∧
      (effOf (flash { wEnv with sourceBytes := none } "/home/user/other.bin" wTarget "simple" true)).wrote
        = false) ∧
    (flash { wEnv with sourceBytes := some [] } "/home/user/other.bin" wTarget "simple" true
        = .ret (-7) (preResetEffects wTarget true) ∧
      (effOf (flash { wEnv with sourceBytes := some [] } "/home/user/other.bin" wTarget "simple" true)).wrote
        = false) :=
  ⟨(C5_read_before_write_amended { wEnv with sourceBytes := none } "/home/user/other.bin"
      wTarget "simple" true "/mnt/DAPLINK" (by decide) (by decide) (by decide) rfl).1 rfl,
   (C5_read_before_write_amended { wEnv with sourceBytes := some [] } "/home/user/other.bin"
      wTarget "simple" true "/mnt/DAPLINK" (by decide) (by decide) (by decide) rfl).2 rfl⟩

/-! ## Scan lemmas for C6 -/

/-- A by-id serial line that the scan treats as a changed match: it contains
the target id and its last path component differs from the current port's. -/
def serialChanged (tid sp line : String) : Bool :=
  strFind line tid && !(lastComp sp == lastComp line)

theorem serialScan_some_ambiguous (t : TDict) (tid sp a : String)
    (htid : t.target_id = some tid) (hsp : t.serial_port = some sp) :
    ∀ rest : List String,
      1 ≤ (rest.filter (serialChanged tid sp)).length →
      serialScanLinux t rest (some a) = .ok (.inl (-10)) := by
  intro rest
  induction rest with
  | nil => intro h; simp at h
  | cons line rest ih =>
    intro h
    cases hf : strFind line tid with
    | false =>
      have hpr : serialChanged tid sp line = false := by
        unfold serialChanged; rw [hf]; rfl
      simp only [serialScanLinux, htid, hf]
      simp only [Bool.false_eq_true, if_false]
      exact ih (by simpa [List.filter_cons, hpr] using h)
    | true =>
      cases hc : (lastComp sp == lastComp line) with
      | true =>
        have hpr : serialChanged tid sp line = false := by
          unfold serialChanged; rw [hf, hc]; rfl
        simp only [serialScanLinux, htid, hsp, hf, hc, if_true]
        simp only [Bool.not_true, Bool.false_eq_true, if_false]
        exact ih (by simpa [List.filter_cons, hpr] using h)
      | false =>
        simp only [serialScanLinux, htid, hsp, hf, hc, if_true]
        rfl

theorem serialScan_none_ambiguous (t : TDict) (tid sp : String)
    (htid : t.target_id = some tid) (hsp : t.serial_port = some sp) :
    ∀ rest : List String,
      2 ≤ (rest.filter (serialChanged tid sp)).length →
      serialScanLinux t rest none = .ok (.inl (-10)) := by
  intro rest
  induction rest with
  | nil => intro h; simp at h
  | cons line rest ih =>
    intro h
    cases hf : strFind line tid with
    | false =>
      have hpr : serialChanged tid sp line = false := by
        unfold serialChanged; rw [hf]; rfl
      simp only [serialScanLinux, htid, hf]
      simp only [Bool.false_eq_true, if_false]
      exact ih (by simpa [List.filter_cons, hpr] using h)
    | true =>
      cases hc : (lastComp sp == lastComp line) with
      | true =>
        have hpr : serialChanged tid sp line = false := by
          unfold serialChanged; rw [hf, hc]; rfl
        simp only [serialScanLinux, htid, hsp, hf, hc, if_true]
        simp only [Bool.not_true, Bool.false_eq_true, if_false]
        exact ih (by simpa [List.filter_cons, hpr] using h)
      | false =>
        have hpr : serialChanged tid sp line = true := by
          unfold serialChanged; rw [hf, hc]; rfl
        simp only [serialScanLinux, htid, hsp, hf, hc, if_true]
        simp only [Bool.not_false, if_true]
        exact serialScan_some_ambiguous t tid sp _ htid hsp rest
          (by
            have := h
            simp [List.filter_cons, hpr] at this
            omega)

theorem serialScan_no_change (t : TDict) (tid sp : String)
    (htid : t.target_id = some tid) (hsp : t.serial_port = some sp) :
    ∀ (rest : List String) (acc : Option String),
      (rest.filter (serialChanged tid sp)).length = 0 →
      serialScanLinux t rest acc = .ok (.inr acc) := by
  intro rest
  induction rest with
  | nil => intro acc _; rfl
  | cons line rest ih =>
    intro acc h
    cases hf : strFind line tid with
    | false =>
      have hpr : serialChanged tid sp line = false := by
        unfold serialChanged; rw [hf]; rfl
      simp only [serialScanLinux, htid, hf]
      simp only [Bool.false_eq_true, if_false]
      exact ih acc (by simpa [List.filter_cons, hpr] using h)
    | true =>
      cases hc : (lastComp sp == lastComp line) with
      | true =>
        have hpr : serialChanged tid sp line = false := by
          unfold serialChanged; rw [hf, hc]; rfl
        simp only [serialScanLinux, htid, hsp, hf, hc, if_true]
        simp only [Bool.not_true, Bool.false_eq_true, if_false]
        exact ih acc (by simpa [List.filter_cons, hpr] using h)
      | false =>
        exfalso
        have hpr : serialChanged tid sp line = true := by
          unfold serialChanged; rw [hf, hc]; rfl
        simp [List.filter_cons, hpr] at h

theorem serialScan_single_change (t : TDict) (tid sp : String)
    (htid : t.target_id = some tid) (hsp : t.serial_port = some sp) :
    ∀ rest : List String,
      (rest.filter (serialChanged tid sp)).length = 1 →
      ∃ x, serialScanLinux t rest none = .ok (.inr (some x)) := by
  intro rest
  induction rest with
  | nil => intro h; simp at h
  | cons line rest ih =>
    intro h
    cases hf : strFind line tid with
    | false =>
      have hpr : serialChanged tid sp line = false := by
        unfold serialChanged; rw [hf]; rfl
      simp only [serialScanLinux, htid, hf]
      simp only [Bool.false_eq_true, if_false]
      exact ih (by simpa [List.filter_cons, hpr] using h)
    | true =>
      cases hc : (lastComp sp == lastComp line) with
      | true =>
        have hpr : serialChanged tid sp line = false := by
          unfold serialChanged; rw [hf, hc]; rfl
        simp only [serialScanLinux, htid, hsp, hf, hc, if_true]
        simp only [Bool.not_true, Bool.false_eq_true, if_false]
        exact ih (by simpa [List.filter_cons, hpr] using h)
      | false =>
        have hpr : serialChanged tid sp line = true := by
          unfold serialChanged; rw [hf, hc]; rfl
        simp only [serialScanLinux, htid, hsp, hf, hc, if_true]
        simp only [Bool.not_false, if_true]
        refine ⟨"/dev/" ++ lastComp line, ?_⟩
        apply serialScan_no_change t tid sp htid hsp rest _
        simp only [List.filter_cons, hpr] at h
        simp only [if_true, List.length_cons, Nat.add_left_eq_self] at h
        exact h

theorem diskScan_some_ambiguous (t : TDict) (tid a : String)
    (htid : t.target_id = some tid) :
    ∀ rest : List String,
      1 ≤ (rest.filter (fun l => strFind l tid)).length →
      diskScanLinux t rest (some a) = .ok (.inl (-11)) := by
  intro rest
  induction rest with
  | nil => intro h; simp at h
  | cons line rest ih =>
    intro h
    cases hf : strFind line tid with
    | false =>
      simp only [diskScanLinux, htid, hf]
      simp only [Bool.false_eq_true, if_false]
      exact ih (by simpa [List.filter_cons, hf] using h)
    | true =>
      simp only [diskScanLinux, htid, hf, if_true]

theorem diskScan_none_ambiguous (t : TDict) (tid : String)
    (htid : t.target_id = some tid) :
    ∀ rest : List String,
      2 ≤ (rest.filter (fun l => strFind l tid)).length →
      diskScanLinux t rest none = .ok (.inl (-11)) := by
  intro rest
  induction rest with
  | nil => intro h; simp at h
  | cons line rest ih =>
    intro h
    cases hf : strFind line tid with
    | false =>
      simp only [diskScanLinux, htid, hf]
      simp only [Bool.false_eq_true, if_false]
      exact ih (by simpa [List.filter_cons, hf] using h)
    | true =>
      simp only [diskScanLinux, htid, hf, if_true]
      apply diskScan_some_ambiguous t tid _ htid rest
      simp only [List.filter_cons, hf, if_true, List.length_cons] at h
      omega

/-! ## C6 -/

/-- Two serial-by-id entries matching the target id, one of which names the
currently known serial port (`ttyACM0`). -/
def c6Env : Env :=
  { wEnv with serialByIdLines :=
      ["lrwxrwxrwx 1 root 13 usb-MBED_0240AAAA-if01 -> ../../ttyACM0",
       "lrwxrwxrwx 1 root 13 usb-MBED_0240AAAA-if01 -> ../../ttyACM2"] }

/-- Counterexample to C6 as stated: the by-id serial namespace holds two
entries matching the target id, yet resolution does not return the `-10`
ambiguity error — the entry naming the current port is skipped and the other
is silently adopted as the new serial port. -/
theorem C6_two_serial_matches_counterexample :
    (c6Env.serialByIdLines.filter (fun l => strFind l "0240AAAA")).length = 2 ∧
    check_points_unchanged c6Env wTarget ≠ .ok (.inl (-10)) ∧
    check_points_unchanged c6Env wTarget
      = .ok (.inr ⟨some "0240AAAA", some "/dev/ttyACM2", none, none⟩) := by
  refine ⟨rfl, ?_, rfl⟩
  intro h
  have hres : check_points_unchanged c6Env wTarget
      = .ok (.inr ⟨some "0240AAAA", some "/dev/ttyACM2", none, none⟩) := rfl
  rw [hres] at h
  exact Sum.noConfusion (Except.ok.inj h)

/-- C6 (amended): on the by-id platform family, more than one serial-by-id
entry that matches the target id *and points at a device node other than the
current serial port* is the `-10` ambiguity error; more than one disk-by-id
entry matching the target id (with at most one changed serial entry before it)
is the `-11` ambiguity error; and when identity resolution returns an error
code, `flash` returns that code at once — the mount point is never inspected
(the reported fault is `none`, i.e. verification never ran). -/
theorem C6_ambiguous_identity_amended :
    (∀ (env : Env) (t : TDict) (tid sp : String),
      env.platform = .linux → t.target_id = some tid → t.serial_port = some sp →
      2 ≤ (env.serialByIdLines.filter (serialChanged tid sp)).length →
      check_points_unchanged env t = .ok (.inl (-10))) ∧
    (∀ (env : Env) (t : TDict) (tid sp : String),
      env.platform = .linux → t.target_id = some tid → t.serial_port = some sp →
      (env.serialByIdLines.filter (serialChanged tid sp)).length ≤ 1 →
      2 ≤ (env.diskByIdLines.filter (fun l => strFind l tid)).length →
      check_points_unchanged env t = .ok (.inl (-11))) ∧
    (∀ (env : Env) (source : String) (t : TDict) (method : String) (no_reset : Bool)
        (mp : String) (bs : List Nat) (c : Int),
      method ≠ "pyocd" → method ≠ "edbg" → t.mount_point = some mp →
      env.sourceBytes = some bs → (env.platform = .windows ∨ bs ≠ []) →
      check_points_unchanged env t = .ok (.inl c) →
      flash env source t method no_reset
          = .ret c { preResetEffects t no_reset with wrote := true } ∧
        (effOf (flash env source t method no_reset)).fault = none) := by
  refine ⟨?_, ?_, ?_⟩
  · intro env t tid sp hplat htid hsp hcount
    unfold check_points_unchanged
    rw [hplat]
    simp only [serialScan_none_ambiguous t tid sp htid hsp env.serialByIdLines hcount]
  · intro env t tid sp hplat htid hsp hser hdisk
    unfold check_points_unchanged
    rw [hplat]
    rcases Nat.lt_or_ge (env.serialByIdLines.filter (serialChanged tid sp)).length 1 with h0 | h1
    · have h0 : (env.serialByIdLines.filter (serialChanged tid sp)).length = 0 := by omega
      simp only [serialScan_no_change t tid sp htid hsp env.serialByIdLines none h0]
      simp only [diskScan_none_ambiguous t tid htid env.diskByIdLines hdisk]
    · have h1 : (env.serialByIdLines.filter (serialChanged tid sp)).length = 1 := by omega
      obtain ⟨x, hx⟩ := serialScan_single_change t tid sp htid hsp env.serialByIdLines h1
      simp only [hx]
      simp only [diskScan_none_ambiguous t tid htid env.diskByIdLines hdisk]
  · intro env source t method no_reset mp bs c hm1 hm2 hmp hsb hbs hchk
    have hfault : (preResetEffects t no_reset).fault = none := by
      unfold preResetEffects
      rcases t.serial_port with _ | sp <;> cases no_reset <;> rfl
    have hflash : flash env source t method no_reset
        = .ret c { preResetEffects t no_reset with wrote := true } := by
      rw [flash_reaches_afterWrite env source t method no_reset mp bs hm1 hm2 hmp hsb hbs]
      unfold afterWrite
      rw [hchk]
    exact ⟨hflash, by rw [hflash]; exact hfault⟩

/-- Two serial-by-id entries matching the target id that both differ from the
current serial port. -/
def c6wEnv : Env :=
  { wEnv with serialByIdLines :=
      ["lrwxrwxrwx 1 root 13 usb-MBED_0240AAAA-if01 -> ../../ttyACM1",
       "lrwxrwxrwx 1 root 13 usb-MBED_0240AAAA-if01 -> ../../ttyACM2"] }

/-- Witness for the amended C6: two changed serial matches yield `-10`, and a
flash over an environment with two matching disk entries aborts with `-11`
before verification. -/
theorem C6_ambiguous_identity_amended_witness :
    check_points_unchanged c6wEnv wTarget = .ok (.inl (-10)) ∧
    flash { wEnv with diskByIdLines :=
        ["lrwx 9 usb-MBED_0240AAAA-0:0 -> ../../sdb",
         "lrwx 9 usb-MBED_0240AAAA-0:0 -> ../../sdc"] }
        "/home/user/fw.bin" wTarget "simple" false
      = .ret (-11) { preResetEffects wTarget false with wrote := true } :=
  ⟨C6_ambiguous_identity_amended.1 c6wEnv wTarget "0240AAAA" "/dev/ttyACM0"
      rfl rfl rfl (by decide),
   (C6_ambiguous_identity_amended.2.2
      { wEnv with diskByIdLines :=
          ["lrwx 9 usb-MBED_0240AAAA-0:0 -> ../../sdb",
           "lrwx 9 usb-MBED_0240AAAA-0:0 -> ../../sdc"] }
      "/home/user/fw.bin" wTarget "simple" false "/mnt/DAPLINK" [1, 2, 3] (-11)
      (by decide) (by decide) rfl rfl (Or.inr (by decide)) rfl).1⟩

/-! ## C7 -/

theorem serialScan_only_neg10 (t : TDict) :
    ∀ (rest : List String) (acc : Option String) (c : Int),
      serialScanLinux t rest acc = .ok (.inl c) → c = -10 := by
  intro rest
  induction rest with
  | nil =>
    intro acc c h
    simp [serialScanLinux] at h
  | cons line rest ih =>
    intro acc c h
    simp only [serialScanLinux] at h
    split at h
    · simp at h
    · split at h
      · split at h
        · simp at h
        · split at h
          · split at h
            · exact ih _ _ h
            · simp at h; omega
          · exact ih _ _ h
      · exact ih _ _ h

theorem diskScan_only_neg11 (t : TDict) :
    ∀ (rest : List String) (acc : Option String) (c : Int),
      diskScanLinux t rest acc = .ok (.inl c) → c = -11 := by
  intro rest
  induction rest with
  | nil =>
    intro acc c h
    simp [diskScanLinux] at h
  | cons line rest ih =>
    intro acc c h
    simp only [diskScanLinux] at h
    split at h
    · simp at h
    · split at h
      · split at h
        · exact ih _ _ h
        · simp at h; omega
      · exact ih _ _ h

/-- One disk-by-id entry matching the target id while the vfat mount table is
empty — the configuration the spec says must end in `-12`. -/
def c7Env : Env :=
  { wEnv with diskByIdLines := ["lrwx 9 usb-MBED_0240AAAA-0:0 -> ../../sdb"],
              vfatMounts := [] }

/-- C7: the claimed behaviour is dead code. `check_points_unchanged` can never
return the `-12` remount-not-observed error, its result never depends on the
vfat mount table, and in the concrete configuration with a matching block
device and no vfat mount it succeeds with the merged descriptor instead of
polling and failing: the `dev_points` list guarding the poll loop (source line
124) is never appended to, so the loop at lines 133-152 cannot run. -/
theorem C7_remount_poll_is_dead_code :
    (∀ (env : Env) (t : TDict), check_points_unchanged env t ≠ .ok (.inl (-12))) ∧
    (∀ (env : Env) (t : TDict) (v : List String),
      check_points_unchanged { env with vfatMounts := v } t = check_points_unchanged env t) ∧
    check_points_unchanged c7Env wTarget
      = .ok (.inr ⟨some "0240AAAA", none, none, some "/dev/sdb"⟩) := by
  refine ⟨?_, ?_, rfl⟩
  · intro env t h
    unfold check_points_unchanged at h
    split at h
    · split at h
      · simp at h
      · split at h
        · simp at h
        · split at h
          · simp only [] at h
            split at h <;> simp at h
          · simp only [] at h
            split at h <;> simp at h
    · split at h
      · simp at h
      · simp at h
    · split at h
      · simp at h
      · rename_i code heq
        have := serialScan_only_neg10 t _ _ _ heq
        simp at h
        omega
      · split at h
        · simp at h
        · rename_i code heq
          have := diskScan_only_neg11 t _ _ _ heq
          simp at h
          omega
        · simp only [List.isEmpty_nil, if_true] at h
          split at h
          · simp at h
          · simp at h
  · intro env t v
    rfl

/-- Witness for C7 at the concrete configuration: even with a matching block
device and an empty mount table, `-12` is not produced. -/
theorem C7_remount_poll_is_dead_code_witness :
    check_points_unchanged c7Env wTarget ≠ .ok (.inl (-12)) :=
  C7_remount_poll_is_dead_code.1 c7Env wTarget

/-! ## C8 -/

/-- One serial-by-id entry matching the target id and pointing at a new port,
while the mount point is unchanged. -/
def c8Env : Env :=
  { wEnv with serialByIdLines :=
      ["lrwxrwxrwx 1 root 13 usb-MBED_0240AAAA-if01 -> ../../ttyACM1"] }

/-- Counterexample to C8 as stated: with a changed serial port and an
unchanged mount point, the returned descriptor does not carry the unchanged
`mount_point` field over from the input — the key is absent in the result. -/
theorem C8_unchanged_field_dropped_counterexample :
    check_points_unchanged c8Env wTarget
      = .ok (.inr ⟨some "0240AAAA", some "/dev/ttyACM1", none, none⟩) ∧
    wTarget.mount_point = some "/mnt/DAPLINK" ∧
    (⟨some "0240AAAA", some "/dev/ttyACM1", none, none⟩ : TDict).mount_point
      ≠ wTarget.mount_point := by
  exact ⟨rfl, rfl, by decide⟩

/-- Shape of the merge (source lines 154-168) on the `new_target` dictionaries
that can actually reach it: ones holding at most a recorded serial port and a
recorded device point. Either nothing was recorded and the input descriptor
itself is returned, or the result is exactly the recorded fields plus the
input's `target_id`. -/
theorem mergeStep_shape (t : TDict) (ns nd : Option String) (r0 : TDict)
    (h : mergeStep t ⟨none, ns, none, nd⟩ = .ok r0) :
    (ns = none ∧ nd = none ∧ r0 = t) ∨
    ((ns.isSome ∨ nd.isSome) ∧ ∃ tid, t.target_id = some tid ∧ r0 = ⟨some tid, ns, none, nd⟩) := by
  unfold mergeStep at h
  split at h
  · rename_i hg
    split at h
    · simp at h
    · split at h
      · simp at h
      · split at h
        · simp at h
        · rename_i tid htid
          have hr0 := Except.ok.inj h
          right
          refine ⟨?_, tid, htid, hr0.symm⟩
          simpa using hg
  · rename_i hg
    left
    have hr0 := Except.ok.inj h
    simp only [Option.isSome_none, Bool.false_eq_true, false_or, Bool.or_eq_true,
      not_or] at hg
    refine ⟨?_, ?_, hr0.symm⟩
    · cases hns : ns with
      | none => rfl
      | some v => rw [hns] at hg; simp at hg
    · cases hnd : nd with
      | none => rfl
      | some v => rw [hnd] at hg; simp at hg

theorem serialScan_one (t : TDict) (tid sp : String)
    (htid : t.target_id = some tid) (hsp : t.serial_port = some sp) :
    ∀ (lines : List String) (l : String),
      lines.filter (serialChanged tid sp) = [l] →
      serialScanLinux t lines none = .ok (.inr (some ("/dev/" ++ lastComp l))) := by
  intro lines
  induction lines with
  | nil => intro l h; simp at h
  | cons line rest ih =>
    intro l h
    cases hf : strFind line tid with
    | false =>
      have hpr : serialChanged tid sp line = false := by
        unfold serialChanged; rw [hf]; rfl
      simp only [serialScanLinux, htid, hf]
      simp only [Bool.false_eq_true, if_false]
      exact ih l (by simpa [List.filter_cons, hpr] using h)
    | true =>
      cases hc : (lastComp sp == lastComp line) with
      | true =>
        have hpr : serialChanged tid sp line = false := by
          unfold serialChanged; rw [hf, hc]; rfl
        simp only [serialScanLinux, htid, hsp, hf, hc, if_true]
        simp only [Bool.not_true, Bool.false_eq_true, if_false]
        exact ih l (by simpa [List.filter_cons, hpr] using h)
      | false =>
        have hpr : serialChanged tid sp line = true := by
          unfold serialChanged; rw [hf, hc]; rfl
        simp only [List.filter_cons, hpr, if_true] at h
        have hl : line = l := (List.cons.inj h).1
        have hrest : rest.filter (serialChanged tid sp) = [] := (List.cons.inj h).2
        simp only [serialScanLinux, htid, hsp, hf, hc, if_true]
        simp only [Bool.not_false, if_true]
        rw [← hl]
        exact serialScan_no_change t tid sp htid hsp rest _ (by rw [hrest]; rfl)

theorem diskScan_no_match (t : TDict) (tid : String) (htid : t.target_id = some tid) :
    ∀ (lines : List String) (acc : Option String),
      (lines.filter (fun l => strFind l tid)).length = 0 →
      diskScanLinux t lines acc = .ok (.inr acc) := by
  intro lines
  induction lines with
  | nil => intro acc _; rfl
  | cons line rest ih =>
    intro acc h
    cases hf : strFind line tid with
    | false =>
      simp only [diskScanLinux, htid, hf]
      simp only [Bool.false_eq_true, if_false]
      exact ih acc (by simpa [List.filter_cons, hf] using h)
    | true =>
      exfalso
      simp [List.filter_cons, hf] at h

theorem diskScan_one (t : TDict) (tid : String) (htid : t.target_id = some tid) :
    ∀ (lines : List String) (l : String),
      lines.filter (fun l2 => strFind l2 tid) = [l] →
      diskScanLinux t lines none = .ok (.inr (some ("/dev/" ++ lastComp l))) := by
  intro lines
  induction lines with
  | nil => intro l h; simp at h
  | cons line rest ih =>
    intro l h
    cases hf : strFind line tid with
    | false =>
      simp only [diskScanLinux, htid, hf]
      simp only [Bool.false_eq_true, if_false]
      exact ih l (by simpa [List.filter_cons, hf] using h)
    | true =>
      simp only [List.filter_cons, hf, if_true] at h
      have hl : line = l := (List.cons.inj h).1
      have hrest : rest.filter (fun l2 => strFind l2 tid) = [] := (List.cons.inj h).2
      simp only [diskScanLinux, htid, hf, if_true]
      rw [← hl]
      exact diskScan_no_match t tid htid rest _ (by rw [hrest]; rfl)

/-- Modelled from the spec's merge contract, for comparison with the code:
every field the resolver did not record falls back to the previous
descriptor's value ("fields that did not change are carried over unchanged"). -/
def specCarryOver (t r : TDict) : TDict :=
  ⟨r.target_id,
   if r.serial_port.isSome then r.serial_port else t.serial_port,
   if r.mount_point.isSome then r.mount_point else t.mount_point,
   if r.dev_point.isSome then r.dev_point else t.dev_point⟩

/-- C8 (amended): on every successful identity resolution, `target_id` is
carried over unchanged, and either nothing was recorded and the very input
descriptor is returned (always so on Darwin), or the result consists exactly
of the recorded fields plus `target_id` and nothing else — unchanged fields
are *not* carried over. Concretely: on Windows, an enumerated COM port equal
to the current one records nothing, a differing one becomes the sole recorded
field; on the by-id family the result (when anything was recorded) is built
from the two scans, whose content is: no matching-and-differing serial entry
⇒ `serial_port` absent, a unique one ⇒ its device node recorded; no matching
disk entry ⇒ `dev_point` absent, a unique one ⇒ its node recorded; a
`mount_point` is never recorded (its only recording site is the unreachable
vfat poll). Finally, the orchestrator compensates for the dropped keys: its
post-reset and verification steps behave exactly as if unchanged serial port
and mount point had been carried over à la the spec (`specCarryOver`). -/
theorem C8_merge_amended :
    (∀ (env : Env) (t r : TDict),
      check_points_unchanged env t = .ok (.inr r) →
      r.target_id = t.target_id ∧ (r = t ∨ r.mount_point = none)) ∧
    (∀ (env : Env) (t : TDict),
      env.platform = .darwin → check_points_unchanged env t = .ok (.inr t)) ∧
    (∀ (env : Env) (t r : TDict) (sp : String),
      env.platform = .windows → t.serial_port = some sp →
      check_points_unchanged env t = .ok (.inr r) →
      (env.comPort = some sp → r = t) ∧
      (∀ c, env.comPort = some c → c ≠ sp → r = ⟨t.target_id, some c, none, none⟩)) ∧
    (∀ (env : Env) (t r : TDict),
      env.platform = .linux →
      check_points_unchanged env t = .ok (.inr r) →
      ∃ ns nd,
        serialScanLinux t env.serialByIdLines none = .ok (.inr ns) ∧
        diskScanLinux t env.diskByIdLines none = .ok (.inr nd) ∧
        ((ns = none ∧ nd = none ∧ r = t) ∨
          ((ns.isSome ∨ nd.isSome) ∧ r = ⟨t.target_id, ns, none, nd⟩))) ∧
    (∀ (t : TDict) (tid sp : String) (lines : List String),
      t.target_id = some tid → t.serial_port = some sp →
      (lines.filter (serialChanged tid sp) = [] →
        serialScanLinux t lines none = .ok (.inr none)) ∧
      (∀ l, lines.filter (serialChanged tid sp) = [l] →
        serialScanLinux t lines none = .ok (.inr (some ("/dev/" ++ lastComp l))))) ∧
    (∀ (t : TDict) (tid : String) (lines : List String),
      t.target_id = some tid →
      (lines.filter (fun l => strFind l tid) = [] →
        diskScanLinux t lines none = .ok (.inr none)) ∧
      (∀ l, lines.filter (fun l2 => strFind l2 tid) = [l] →
        diskScanLinux t lines none = .ok (.inr (some ("/dev/" ++ lastComp l))))) ∧
    (∀ (env : Env) (t r : TDict) (no_reset : Bool) (eff : Effects) (mp tail : String),
      t.mount_point = some mp →
      postResetEffects t r no_reset eff = postResetEffects t (specCarryOver t r) no_reset eff ∧
      verifyStep env r mp tail eff = verifyStep env (specCarryOver t r) mp tail eff) := by
  refine ⟨?_, ?_, ?_, ?_, ?_, ?_, ?_⟩
  · intro env t r hchk
    unfold check_points_unchanged at hchk
    split at hchk
    · split at hchk
      · simp at hchk
      · split at hchk
        · simp at hchk
        · simp only [] at hchk
          split at hchk
          · simp at hchk
          · rename_i r0 heq
            have hr : r0 = r := by simpa using hchk
            subst hr
            split at heq
            · rcases mergeStep_shape t none none r0 heq with ⟨_, _, hr0⟩ | ⟨hs, _, _, _⟩
              · subst hr0; exact ⟨rfl, Or.inl rfl⟩
              · simp at hs
            · rcases mergeStep_shape t env.comPort none r0 heq with ⟨_, _, hr0⟩ | ⟨_, tid, htid, hr0⟩
              · subst hr0; exact ⟨rfl, Or.inl rfl⟩
              · subst hr0; rw [htid]; exact ⟨rfl, Or.inr rfl⟩
    · split at hchk
      · simp at hchk
      · rename_i r0 heq
        have hr : r0 = r := by simpa using hchk
        subst hr
        rcases mergeStep_shape t none none r0 heq with ⟨_, _, hr0⟩ | ⟨hs, _, _, _⟩
        · subst hr0; exact ⟨rfl, Or.inl rfl⟩
        · simp at hs
    · split at hchk
      · simp at hchk
      · simp at hchk
      · split at hchk
        · simp at hchk
        · simp at hchk
        · simp only [List.isEmpty_nil, if_true] at hchk
          split at hchk
          · simp at hchk
          · rename_i r0 heq
            have hr : r0 = r := by simpa using hchk
            subst hr
            rcases mergeStep_shape t _ _ r0 heq with ⟨_, _, hr0⟩ | ⟨_, tid, htid, hr0⟩
            · subst hr0; exact ⟨rfl, Or.inl rfl⟩
            · subst hr0; rw [htid]; exact ⟨rfl, Or.inr rfl⟩
  · intro env t hplat
    unfold check_points_unchanged
    rw [hplat]
    rfl
  · intro env t r sp hplat hsp hchk
    unfold check_points_unchanged at hchk
    simp only [hplat, hsp] at hchk
    split at hchk
    · simp at hchk
    · split at hchk
      · simp at hchk
      · rename_i r0 heq
        have hr : r0 = r := by simpa using hchk
        subst hr
        constructor
        · intro hcp
          rw [if_pos hcp] at heq
          rcases mergeStep_shape t none none r0 heq with ⟨_, _, hr0⟩ | ⟨hs, _, _, _⟩
          · exact hr0
          · simp at hs
        · intro c hcpc hne
          rw [if_neg (by rw [hcpc]; intro hcontra; exact hne (Option.some.inj hcontra))] at heq
          rw [hcpc] at heq
          rcases mergeStep_shape t (some c) none r0 heq with ⟨hns, _, _⟩ | ⟨_, tid, htid, hr0⟩
          · simp at hns
          · rw [hr0, htid]
  · intro env t r hplat hchk
    unfold check_points_unchanged at hchk
    simp only [hplat] at hchk
    split at hchk
    · simp at hchk
    · simp at hchk
    · rename_i ns heqS
      split at hchk
      · simp at hchk
      · simp at hchk
      · rename_i nd heqD
        simp only [List.isEmpty_nil, if_true] at hchk
        split at hchk
        · simp at hchk
        · rename_i r0 heq
          have hr : r0 = r := by simpa using hchk
          subst hr
          refine ⟨ns, nd, heqS, heqD, ?_⟩
          rcases mergeStep_shape t ns nd r0 heq with ⟨h1, h2, hr0⟩ | ⟨hs, tid, htid, hr0⟩
          · exact Or.inl ⟨h1, h2, hr0⟩
          · subst hr0; rw [htid]; exact Or.inr ⟨hs, rfl⟩
  · intro t tid sp lines htid hsp
    constructor
    · intro h
      exact serialScan_no_change t tid sp htid hsp lines none (by rw [h]; rfl)
    · intro l h
      exact serialScan_one t tid sp htid hsp lines l h
  · intro t tid lines htid
    constructor
    · intro h
      exact diskScan_no_match t tid htid lines none (by rw [h]; rfl)
    · intro l h
      exact diskScan_one t tid htid lines l h
  · intro env t r no_reset eff mp tail hmp
    constructor
    · unfold postResetEffects specCarryOver
      cases no_reset with
      | true => simp
      | false =>
        simp only [Bool.false_eq_true, if_false]
        cases hrs : r.serial_port with
        | some sp2 => simp [hrs]
        | none =>
          simp only [hrs]
          cases hts : t.serial_port with
          | some sp2 => simp [hts]
          | none => simp [hts]
    · unfold verifyStep specCarryOver
      simp only []
      cases hrm : r.mount_point with
      | some m => simp [hrm]
      | none => simp [hrm, hmp]

/-- Witness for the amended C8 at concrete inputs: the by-id resolution keeps
`target_id` and, having recorded a change, has no `mount_point` key; the
Darwin resolution returns the input descriptor itself; and the serial scan
records the device node of the unique changed entry. -/
theorem C8_merge_amended_witness :
    ((⟨some "0240AAAA", some "/dev/ttyACM1", none, none⟩ : TDict).target_id = wTarget.target_id ∧
      ((⟨some "0240AAAA", some "/dev/ttyACM1", none, none⟩ : TDict) = wTarget ∨
        (⟨some "0240AAAA", some "/dev/ttyACM1", none, none⟩ : TDict).mount_point = none)) ∧
    check_points_unchanged { wEnv with platform := .darwin } wTarget = .ok (.inr wTarget) ∧
    serialScanLinux wTarget c8Env.serialByIdLines none
      = .ok (.inr (some ("/dev/" ++
          lastComp "lrwxrwxrwx 1 root 13 usb-MBED_0240AAAA-if01 -> ../../ttyACM1"))) :=
  ⟨C8_merge_amended.1 c8Env wTarget ⟨some "0240AAAA", some "/dev/ttyACM1", none, none⟩ rfl,
   C8_merge_amended.2.1 { wEnv with platform := .darwin } wTarget rfl,
   (C8_merge_amended.2.2.2.2.1 wTarget "0240AAAA" "/dev/ttyACM0"
      c8Env.serialByIdLines rfl rfl).2
     "lrwxrwxrwx 1 root 13 usb-MBED_0240AAAA-if01 -> ../../ttyACM1" rfl⟩

/-! ## C9 -/

theorem runnerFrom_settled_of (env : Env) (tail : String) :
    ∀ (d k n : Nat), k + d = n →
      runnerCond env tail n = true →
      (∀ m, k ≤ m → m < n →
        runnerCond env tail m = false ∧ elapsedAt env m ≤ FLASHING_VERIFICATION_TIMEOUT) →
      runnerFrom env tail k = .settled n := by
  intro d
  induction d with
  | zero =>
    intro k n hk hcond _
    have hkn : k = n := by omega
    subst hkn
    unfold runnerFrom
    simp [hcond]
  | succ d ih =>
    intro k n hk hcond hbelow
    have hklt : k < n := by omega
    obtain ⟨hck, hek⟩ := hbelow k (Nat.le_refl k) hklt
    unfold runnerFrom
    simp only [hck, Bool.false_eq_true, if_false]
    rw [dif_neg (by omega)]
    exact ih (k + 1) n (by omega) hcond (fun m hm1 hm2 => hbelow m (by omega) hm2)

theorem runnerFrom_timedOut_of (env : Env) (tail : String)
    (hc : ∀ n, runnerCond env tail n = false) :
    ∀ (j k : Nat), 51 - k ≤ j →
      ∃ m, k ≤ m ∧ runnerFrom env tail k = .timedOut m ∧
        FLASHING_VERIFICATION_TIMEOUT < elapsedAt env m := by
  intro j
  induction j with
  | zero =>
    intro k hk
    have hge := elapsedAt_ge env k
    have htime : FLASHING_VERIFICATION_TIMEOUT < elapsedAt env k := by
      simp only [FLASHING_VERIFICATION_TIMEOUT]
      omega
    refine ⟨k, Nat.le_refl k, ?_, htime⟩
    unfold runnerFrom
    simp [hc k, htime]
  | succ j ih =>
    intro k hk
    by_cases htime : FLASHING_VERIFICATION_TIMEOUT < elapsedAt env k
    · refine ⟨k, Nat.le_refl k, ?_, htime⟩
      unfold runnerFrom
      simp [hc k, htime]
    · have hk49 : k ≤ 49 := by
        have hge := elapsedAt_ge env k
        simp only [FLASHING_VERIFICATION_TIMEOUT] at htime
        omega
      obtain ⟨m, hm1, hm2, hm3⟩ := ih (k + 1) (by omega)
      refine ⟨m, by omega, ?_, hm3⟩
      unfold runnerFrom
      simp only [hc k, Bool.false_eq_true, if_false]
      rw [dif_neg htime]
      exact hm2

/-- C9: the remount watch loop terminates for every behaviour of the polled
listing: it exits with `settled n` as soon as poll `n` first meets one of the
two break conditions (earlier polls met none and had not yet exceeded the
timeout), and when no poll ever meets a condition it exits with `timedOut m`
at the first poll whose elapsed wall-clock time exceeds the 100-second
verification timeout; and the watcher's observations are advisory only — the
orchestrator's result is unchanged under arbitrary replacement of the poll
stream, the per-poll timing, and the auxiliary listing, so `flash` proceeds to
the reset and verification steps the same way whether or not the watch timed
out. -/
theorem C9_runner_terminates_advisory :
    (∀ (env : Env) (tail : String) (n : Nat),
      runnerCond env tail n = true →
      (∀ m, m < n →
        runnerCond env tail m = false ∧ elapsedAt env m ≤ FLASHING_VERIFICATION_TIMEOUT) →
      runner env tail = .settled n) ∧
    (∀ (env : Env) (tail : String),
      (∀ n, runnerCond env tail n = false) →
      ∃ m, runner env tail = .timedOut m ∧ FLASHING_VERIFICATION_TIMEOUT < elapsedAt env m) ∧
    (∀ (p : Platform) (pa : Bool) (sb : Option (List Nat)) (cp : Option String)
        (sl dl vm : List String) (f1 f2 : Nat → String) (e1 e2 : Nat → Nat)
        (a1 a2 : List String) (fs : String → String → Option String)
        (source : String) (t : TDict) (method : String) (no_reset : Bool),
      flash ⟨p, pa, sb, cp, sl, dl, vm, f1, e1, a1, fs⟩ source t method no_reset
        = flash ⟨p, pa, sb, cp, sl, dl, vm, f2, e2, a2, fs⟩ source t method no_reset) := by
  refine ⟨?_, ?_, ?_⟩
  · intro env tail n hcond hbelow
    exact runnerFrom_settled_of env tail n 0 n (by omega) hcond
      (fun m _ hm2 => hbelow m hm2)
  · intro env tail hc
    obtain ⟨m, _, hm2, hm3⟩ := runnerFrom_timedOut_of env tail hc 51 0 (by omega)
    exact ⟨m, hm2, hm3⟩
  · intro p pa sb cp sl dl vm f1 f2 e1 e2 a1 a2 fs source t method no_reset
    rfl

/-- A poll stream that immediately shows the board's `.HTM` status page with
the written file gone, and one that always still lists the written file. -/
def c9SettleEnv : Env := { wEnv with poll := fun _ => "DETAILS.TXT  MBED.HTM" }

def c9StuckEnv : Env := { wEnv with poll := fun _ => "fw.bin" }

/-- Witness for C9: with the status page visible at once the watch settles at
poll 0; with a never-changing listing it times out at some poll past the
100-second budget. -/
theorem C9_runner_terminates_advisory_witness :
    runner c9SettleEnv "fw.bin" = .settled 0 ∧
    ∃ m, runner c9StuckEnv "fw.bin" = .timedOut m ∧
      FLASHING_VERIFICATION_TIMEOUT < elapsedAt c9StuckEnv m :=
  ⟨C9_runner_terminates_advisory.1 c9SettleEnv "fw.bin" 0 (by decide)
      (fun m hm => absurd hm (Nat.not_lt_zero m)),
   C9_runner_terminates_advisory.2.1 c9StuckEnv "fw.bin" (fun _ => rfl)⟩
